import Mathlib

/-!
Shallow embedding of the `lscolors` library (src/lib.rs, src/style.rs):
a registry mapping file-system indicators and filename suffixes to ANSI
styles, with the SGR parser, the path classifier, the indicator fallback
resolver, full-path resolution and the per-component styler.

Rust strings are modelled as Lean `String` (a wrapper around `List Char`);
the string operations the source uses (`split`, `to_ascii_lowercase`,
`ends_with`, `strip_prefix`, `u8::from_str_radix`) are given structural
definitions on the underlying character list so that everything reduces
in the kernel.  `HashMap<Indicator, Style>` is modelled as the finite map
`Indicator → Option Style` (insert = pointwise update, remove = update to
`none`, `contains_key` = `isSome`), and `Vec` as `List`.
-/

namespace Lscolors

/-- The 24 file/content classification categories of `Indicator` in src/lib.rs. -/
inductive Indicator where
  | Normal
  | RegularFile
  | Directory
  | SymbolicLink
  | FIFO
  | Socket
  | Door
  | BlockDevice
  | CharacterDevice
  | OrphanedSymbolicLink
  | Setuid
  | Setgid
  | Sticky
  | OtherWritable
  | StickyAndOtherWritable
  | ExecutableFile
  | MissingFile
  | Capabilities
  | MultipleHardLinks
  | LeftCode
  | RightCode
  | EndCode
  | Reset
  | ClearLine
deriving DecidableEq, Repr

/-- Embeds `Indicator::from` (src/lib.rs): the two-letter code table. -/
def Indicator.fromCode (indicator : String) : Option Indicator :=
  match indicator with
  | "no" => some Indicator.Normal
  | "fi" => some Indicator.RegularFile
  | "di" => some Indicator.Directory
  | "ln" => some Indicator.SymbolicLink
  | "pi" => some Indicator.FIFO
  | "so" => some Indicator.Socket
  | "do" => some Indicator.Door
  | "bd" => some Indicator.BlockDevice
  | "cd" => some Indicator.CharacterDevice
  | "or" => some Indicator.OrphanedSymbolicLink
  | "su" => some Indicator.Setuid
  | "sg" => some Indicator.Setgid
  | "st" => some Indicator.Sticky
  | "ow" => some Indicator.OtherWritable
  | "tw" => some Indicator.StickyAndOtherWritable
  | "ex" => some Indicator.ExecutableFile
  | "mi" => some Indicator.MissingFile
  | "ca" => some Indicator.Capabilities
  | "mh" => some Indicator.MultipleHardLinks
  | "lc" => some Indicator.LeftCode
  | "rc" => some Indicator.RightCode
  | "ec" => some Indicator.EndCode
  | "rs" => some Indicator.Reset
  | "cl" => some Indicator.ClearLine
  | _ => none

/-- Embeds `Color` (src/style.rs).  The `u8` payloads are `Nat`s; the SGR
parser only ever stores values below 256. -/
inductive Color where
  | Black
  | Red
  | Green
  | Yellow
  | Blue
  | Purple
  | Cyan
  | White
  | Fixed (n : Nat)
  | RGB (r g b : Nat)
deriving DecidableEq, Repr

/-- Embeds `FontStyle` (src/style.rs). -/
structure FontStyle where
  bold : Bool
  italic : Bool
  underline : Bool
deriving DecidableEq, Repr

/-- Embeds `FontStyle::default()`: all attributes off. -/
def FontStyle.dflt : FontStyle := ⟨false, false, false⟩

/-- Embeds `Style` (src/style.rs). -/
structure Style where
  foreground : Option Color
  background : Option Color
  font_style : FontStyle
deriving DecidableEq, Repr

/-- Model of Rust `str::split(sep)` for a one-character separator, on the
underlying character list.  Splitting the empty string yields `[[]]`. -/
def splitCharList (sep : Char) : List Char → List (List Char)
  | [] => [[]]
  | c :: rest =>
    if c = sep then [] :: splitCharList sep rest
    else
      match splitCharList sep rest with
      | g :: gs => (c :: g) :: gs
      | [] => [[c]]

/-- Model of Rust `str::split(sep)` at the `String` level. -/
def splitOnChar (s : String) (sep : Char) : List String :=
  (splitCharList sep s.data).map String.mk

/-- ASCII lower-casing of one character, as in Rust `to_ascii_lowercase`. -/
def asciiLowerChar (c : Char) : Char :=
  if 65 ≤ c.toNat ∧ c.toNat ≤ 90 then Char.ofNat (c.toNat + 32) else c

/-- Model of Rust `str::to_ascii_lowercase`. -/
def asciiLower (s : String) : String :=
  String.mk (s.data.map asciiLowerChar)

/-- Model of Rust `str::ends_with(suffix)`: the characters of `post` are a
suffix of the characters of `s`. -/
def endsWithStr (s post : String) : Bool :=
  post.data.isSuffixOf s.data

/-- Model of Rust `str::strip_prefix('*')` as used by `add_from_string`:
when the string starts with a star, the remainder after it. -/
def stripStar (s : String) : Option String :=
  match s.data with
  | '*' :: rest => some (String.mk rest)
  | _ => none

/-- Numeric value of an ASCII decimal digit. -/
def digitVal (c : Char) : Option Nat :=
  if '0' ≤ c ∧ c ≤ '9' then some (c.toNat - 48) else none

/-- Accumulate the decimal value of a digit list (no overflow in `Nat`). -/
def digitsVal : List Char → Nat → Option Nat
  | [], acc => some acc
  | c :: cs, acc =>
    match digitVal c with
    | some d => digitsVal cs (acc * 10 + d)
    | none => none

/-- Model of Rust `u8::from_str_radix(s, 10)`: a leading `+` sign is
stripped (a bare `+` is an error); a `-` sign is *not* stripped for
unsigned types, so any `-`-prefixed string fails when `-` is rejected as a
digit; the remaining characters must be at least one decimal digit and the
value must fit in a byte (checked multiply/add overflows exactly when the
numeral exceeds 255). -/
def parseU8 (s : String) : Option Nat :=
  match s.data with
  | [] => none
  | '+' :: cs =>
    match cs with
    | [] => none
    | _ => (digitsVal cs 0).bind fun n => if n ≤ 255 then some n else none
  | cs => (digitsVal cs 0).bind fun n => if n ≤ 255 then some n else none

/-- Embeds the `collect::<Option<VecDeque<u8>>>` step of
`Style::from_ansi_sequence`: every token must parse, else the whole
collection is `none`. -/
def parseTokens : List String → Option (List Nat)
  | [] => some []
  | t :: ts =>
    match parseU8 t, parseTokens ts with
    | some n, some ns => some (n :: ns)
    | _, _ => none

/-- Embeds the token-consumption loop of `Style::from_ansi_sequence`
(src/style.rs lines 79 to 135): each recognized token mutates the
accumulator; `38`/`48` consume an extended color spec; an unrecognized
token, exhaustion, or a malformed extended spec breaks out of the loop and
the accumulated state is returned. -/
def sgrLoop : List Nat → FontStyle → Option Color → Option Color → Style
  | [], fs, fg, bg => ⟨fg, bg, fs⟩
  | n :: rest, fs, fg, bg =>
    if n = 0 then sgrLoop rest FontStyle.dflt fg bg
    else if n = 1 then sgrLoop rest { fs with bold := true } fg bg
    else if n = 3 then sgrLoop rest { fs with italic := true } fg bg
    else if n = 4 then sgrLoop rest { fs with underline := true } fg bg
    else if n = 30 then sgrLoop rest fs (some Color.Black) bg
    else if n = 31 then sgrLoop rest fs (some Color.Red) bg
    else if n = 32 then sgrLoop rest fs (some Color.Green) bg
    else if n = 33 then sgrLoop rest fs (some Color.Yellow) bg
    else if n = 34 then sgrLoop rest fs (some Color.Blue) bg
    else if n = 35 then sgrLoop rest fs (some Color.Purple) bg
    else if n = 36 then sgrLoop rest fs (some Color.Cyan) bg
    else if n = 37 then sgrLoop rest fs (some Color.White) bg
    else if n = 38 then
      match rest with
      | 5 :: color :: rest2 => sgrLoop rest2 fs (some (Color.Fixed color)) bg
      | 2 :: red :: green :: blue :: rest2 =>
        sgrLoop rest2 fs (some (Color.RGB red green blue)) bg
      | _ => ⟨fg, bg, fs⟩
    else if n = 39 then sgrLoop rest fs none bg
    else if n = 40 then sgrLoop rest fs fg (some Color.Black)
    else if n = 41 then sgrLoop rest fs fg (some Color.Red)
    else if n = 42 then sgrLoop rest fs fg (some Color.Green)
    else if n = 43 then sgrLoop rest fs fg (some Color.Yellow)
    else if n = 44 then sgrLoop rest fs fg (some Color.Blue)
    else if n = 45 then sgrLoop rest fs fg (some Color.Purple)
    else if n = 46 then sgrLoop rest fs fg (some Color.Cyan)
    else if n = 47 then sgrLoop rest fs fg (some Color.White)
    else if n = 48 then
      match rest with
      | 5 :: color :: rest2 => sgrLoop rest2 fs fg (some (Color.Fixed color))
      | 2 :: red :: green :: blue :: rest2 =>
        sgrLoop rest2 fs fg (some (Color.RGB red green blue))
      | _ => ⟨fg, bg, fs⟩
    else if n = 49 then sgrLoop rest fs fg none
    else ⟨fg, bg, fs⟩

/-- Embeds `Style::from_ansi_sequence` (src/style.rs): tokenize on `;`,
require every token to be a valid `u8`, then run the consumption loop from
the all-default accumulator. -/
def Style.from_ansi_sequence (code : String) : Option Style :=
  match parseTokens (splitOnChar code ';') with
  | none => none
  | some parts => some (sgrLoop parts FontStyle.dflt none none)

/-- Embeds the `LsColors` struct (src/lib.rs): `indicator_mapping` is the
`HashMap<Indicator, Style>` modelled as a finite map, `suffix_mapping` the
ordered `Vec<(FileNameSuffix, Style)>`. -/
structure LsColors where
  indicator_mapping : Indicator → Option Style
  suffix_mapping : List (String × Style)

/-- Embeds `LsColors::empty`. -/
def LsColors.empty : LsColors := ⟨fun _ => none, []⟩

/-- Embeds the body of the per-entry processing inside `add_from_string`
once the entry has been split into a key and a value (src/lib.rs lines 232
to 246). -/
def LsColors.add_kv (l : LsColors) (key value : String) : LsColors :=
  let style := Style.from_ansi_sequence value
  match stripStar key with
  | some suffix =>
    match style with
    | some st =>
      { l with suffix_mapping := l.suffix_mapping ++ [(asciiLower suffix, st)] }
    | none => l
  | none =>
    match Indicator.fromCode key with
    | some indicator =>
      match style with
      | some st =>
        { l with indicator_mapping :=
            fun i => if i = indicator then some st else l.indicator_mapping i }
      | none =>
        { l with indicator_mapping :=
            fun i => if i = indicator then none else l.indicator_mapping i }
    | none => l

/-- Embeds the handling of one `:`-separated entry in `add_from_string`:
`entry.split('=').collect()` then `parts.get(0..2)` takes the first two
split parts as key and value; with fewer than two parts the entry is
skipped. -/
def LsColors.add_entry (l : LsColors) (entry : String) : LsColors :=
  match splitOnChar entry '=' with
  | key :: value :: _ => l.add_kv key value
  | _ => l

/-- Embeds `LsColors::add_from_string` (src/lib.rs lines 228 to 248). -/
def LsColors.add_from_string (l : LsColors) (input : String) : LsColors :=
  (splitOnChar input ':').foldl LsColors.add_entry l

/-- Embeds `LsColors::has_color_for`. -/
def LsColors.has_color_for (l : LsColors) (indicator : Indicator) : Bool :=
  (l.indicator_mapping indicator).isSome

/-- Embeds `LsColors::style_for_indicator` (src/lib.rs lines 378 to 400):
direct lookup, `or_else` lookup of the single fallback indicator given by
the inline match, `or_else` lookup of `Normal`. -/
def LsColors.style_for_indicator (l : LsColors) (indicator : Indicator) : Option Style :=
  ((l.indicator_mapping indicator).orElse fun _ =>
    l.indicator_mapping
      (match indicator with
        | Indicator.Setuid | Indicator.Setgid | Indicator.ExecutableFile
        | Indicator.MultipleHardLinks => Indicator.RegularFile
        | Indicator.StickyAndOtherWritable | Indicator.OtherWritable
        | Indicator.Sticky => Indicator.Directory
        | Indicator.OrphanedSymbolicLink => Indicator.SymbolicLink
        | Indicator.MissingFile => Indicator.OrphanedSymbolicLink
        | _ => indicator)).orElse fun _ =>
    l.indicator_mapping Indicator.Normal

/-- File-type classification carried by `std::fs::Metadata` as the source
consumes it: `is_file` / `is_dir` / `is_symlink`, the four unix special
types, or an unknown type. -/
inductive FileType where
  | File
  | Dir
  | Symlink
  | Fifo
  | Socket
  | BlockDevice
  | CharDevice
  | Unknown
deriving DecidableEq, Repr

/-- The slice of `std::fs::Metadata` the source reads: the file type, the
permission mode bits (`crate::fs::mode`) and the hard-link count
(`crate::fs::nlink`). -/
structure Metadata where
  file_type : FileType
  mode : Nat
  nlink : Nat
deriving DecidableEq, Repr

/-- Embeds `LsColors::indicator_for` (src/lib.rs lines 265 to 330).  The
`path.exists()` probe used for broken-symlink detection is an external
filesystem call, passed in as the boolean `pathExists`. -/
def LsColors.indicator_for (l : LsColors) (pathExists : Bool)
    (metadata : Option Metadata) : Indicator :=
  match metadata with
  | some md =>
    match md.file_type with
    | FileType.File =>
      if l.has_color_for Indicator.Setuid && decide (md.mode &&& 0o4000 ≠ 0) then
        Indicator.Setuid
      else if l.has_color_for Indicator.Setgid && decide (md.mode &&& 0o2000 ≠ 0) then
        Indicator.Setgid
      else if l.has_color_for Indicator.ExecutableFile && decide (md.mode &&& 0o0111 ≠ 0) then
        Indicator.ExecutableFile
      else if l.has_color_for Indicator.MultipleHardLinks && decide (md.nlink > 1) then
        Indicator.MultipleHardLinks
      else
        Indicator.RegularFile
    | FileType.Dir =>
      if l.has_color_for Indicator.StickyAndOtherWritable
          && decide (md.mode &&& 0o1002 = 0o1002) then
        Indicator.StickyAndOtherWritable
      else if l.has_color_for Indicator.OtherWritable && decide (md.mode &&& 0o0002 ≠ 0) then
        Indicator.OtherWritable
      else if l.has_color_for Indicator.Sticky && decide (md.mode &&& 0o1000 ≠ 0) then
        Indicator.Sticky
      else
        Indicator.Directory
    | FileType.Symlink =>
      if l.has_color_for Indicator.OrphanedSymbolicLink && !pathExists then
        Indicator.OrphanedSymbolicLink
      else
        Indicator.SymbolicLink
    | FileType.Fifo => Indicator.FIFO
    | FileType.Socket => Indicator.Socket
    | FileType.BlockDevice => Indicator.BlockDevice
    | FileType.CharDevice => Indicator.CharacterDevice
    | FileType.Unknown => Indicator.MissingFile
  | none => Indicator.RegularFile

/-- Embeds `LsColors::style_for_path_with_metadata` (src/lib.rs lines 336
to 360).  The `path.file_name()` / `.to_str()` pair is passed in as
`file_name : Option (Option String)`: the outer layer is whether the path
has a final component, the inner layer whether it is valid text; the `?`
operator on either propagates `none` out of the whole function. -/
def LsColors.style_for_path_with_metadata (l : LsColors) (pathExists : Bool)
    (file_name : Option (Option String)) (metadata : Option Metadata) : Option Style :=
  let indicator := l.indicator_for pathExists metadata
  if indicator = Indicator.RegularFile then
    match file_name with
    | none => none
    | some none => none
    | some (some name) =>
      let filename := asciiLower name
      match l.suffix_mapping.reverse.find? (fun p => endsWithStr filename p.1) with
      | some p => some p.2
      | none => l.style_for_indicator indicator
  else
    l.style_for_indicator indicator

/-- Embeds `std::path::Component` as the source consumes it. -/
inductive PathComponent where
  | Pre (s : String)
  | RootDir
  | CurDir
  | ParentDir
  | Normal (s : String)
deriving DecidableEq, Repr

/-- The platform path separator; this model fixes the unix value. -/
def MAIN_SEPARATOR : Char := '/'

/-- Embeds `component.as_os_str()` for each component kind. -/
def componentText : PathComponent → String
  | PathComponent.Pre s => s
  | PathComponent.RootDir => String.mk [MAIN_SEPARATOR]
  | PathComponent.CurDir => "."
  | PathComponent.ParentDir => ".."
  | PathComponent.Normal s => s

/-- Embeds `Path::file_name` of the path assembled from a component list:
the last component when it is a normal one, otherwise nothing. -/
def fileNameOfComponents (cs : List PathComponent) : Option String :=
  match cs.getLast? with
  | some (PathComponent.Normal s) => some s
  | _ => none

/-- The external filesystem collaborator: `symlink_metadata` and the
symlink-following `exists` probe, both keyed by the component list of the
queried path. -/
structure FsOracle where
  metadata : List PathComponent → Option Metadata
  pathExists : List PathComponent → Bool

/-- Embeds `LsColors::style_for_path` over the filesystem oracle: fetch
metadata for the path and resolve with it.  Component strings are valid
text, so the filename (when present) is always representable. -/
def LsColors.style_for_path (l : LsColors) (fs : FsOracle)
    (cs : List PathComponent) : Option Style :=
  l.style_for_path_with_metadata (fs.pathExists cs)
    ((fileNameOfComponents cs).map some) (fs.metadata cs)

/-- Embeds the `Iterator` for `StyledComponents` (src/lib.rs lines 151 to
178), accumulating the prefix path in `acc`: each component is pushed onto
the accumulated path, styled by full-path resolution of that path, and its
text gets the separator appended when a later component exists unless it is
a prefix or root component. -/
def styledComponentsAux (l : LsColors) (fs : FsOracle) :
    List PathComponent → List PathComponent → List (String × Option Style)
  | _, [] => []
  | acc, c :: rest =>
    let acc2 := acc ++ [c]
    let style := l.style_for_path fs acc2
    let text := componentText c
    let text2 :=
      if rest.isEmpty then text
      else
        match c with
        | PathComponent.Pre _ | PathComponent.RootDir => text
        | _ => text ++ String.mk [MAIN_SEPARATOR]
    (text2, style) :: styledComponentsAux l fs acc2 rest

/-- Embeds `LsColors::style_for_path_components` (src/lib.rs lines 366 to
372): the styled-component sequence starting from the empty prefix. -/
def LsColors.style_for_path_components (l : LsColors) (fs : FsOracle)
    (cs : List PathComponent) : List (String × Option Style) :=
  styledComponentsAux l fs [] cs

/-- The spec's fallback table, one designated fallback indicator per
indicator: Setuid, Setgid, ExecutableFile and MultipleHardLinks fall back
to RegularFile; StickyAndOtherWritable, OtherWritable and Sticky to
Directory; OrphanedSymbolicLink to SymbolicLink; MissingFile to
OrphanedSymbolicLink; all others to themselves. -/
def specFallback : Indicator → Indicator
  | Indicator.Setuid => Indicator.RegularFile
  | Indicator.Setgid => Indicator.RegularFile
  | Indicator.ExecutableFile => Indicator.RegularFile
  | Indicator.MultipleHardLinks => Indicator.RegularFile
  | Indicator.StickyAndOtherWritable => Indicator.Directory
  | Indicator.OtherWritable => Indicator.Directory
  | Indicator.Sticky => Indicator.Directory
  | Indicator.OrphanedSymbolicLink => Indicator.SymbolicLink
  | Indicator.MissingFile => Indicator.OrphanedSymbolicLink
  | i => i

/-- One stage of the spec's staged lookup: the hit if there is one,
otherwise the next stage. -/
def lookupStep (o : Option Style) (next : Option Style) : Option Style :=
  match o with
  | some s => some s
  | none => next

/-- The spec's description of indicator resolution: look up the indicator
directly; on a miss look up its single designated fallback from the fixed
table; on a second miss look up Normal; if that also misses, give up and
return nothing. -/
def resolveSpec (l : LsColors) (i : Indicator) : Option Style :=
  lookupStep (l.indicator_mapping i)
    (lookupStep (l.indicator_mapping (specFallback i))
      (lookupStep (l.indicator_mapping Indicator.Normal) none))

/-- The spec's description of regular-file classification: in strict
priority order, check only attributes with an explicitly configured style
(an unconfigured attribute is skipped entirely): setuid bit, setgid bit,
any executable bit, link count above one, else plain RegularFile. -/
def fileClassifySpec (l : LsColors) (md : Metadata) : Indicator :=
  if l.has_color_for Indicator.Setuid ∧ md.mode &&& 0o4000 ≠ 0 then
    Indicator.Setuid
  else if l.has_color_for Indicator.Setgid ∧ md.mode &&& 0o2000 ≠ 0 then
    Indicator.Setgid
  else if l.has_color_for Indicator.ExecutableFile ∧ md.mode &&& 0o0111 ≠ 0 then
    Indicator.ExecutableFile
  else if l.has_color_for Indicator.MultipleHardLinks ∧ md.nlink > 1 then
    Indicator.MultipleHardLinks
  else
    Indicator.RegularFile

/-- The spec's description of directory classification, with the same
configured-only gating: sticky-and-other-writable, other-writable alone,
sticky alone, else plain Directory. -/
def dirClassifySpec (l : LsColors) (md : Metadata) : Indicator :=
  if l.has_color_for Indicator.StickyAndOtherWritable ∧ md.mode &&& 0o1002 = 0o1002 then
    Indicator.StickyAndOtherWritable
  else if l.has_color_for Indicator.OtherWritable ∧ md.mode &&& 0o0002 ≠ 0 then
    Indicator.OtherWritable
  else if l.has_color_for Indicator.Sticky ∧ md.mode &&& 0o1000 ≠ 0 then
    Indicator.Sticky
  else
    Indicator.Directory

/-- The set of SGR tokens the consumption loop recognizes: 0, 1, 3, 4 and
everything from 30 to 49. -/
def sgrRecognized (n : Nat) : Bool :=
  decide (n = 0 ∨ n = 1 ∨ n = 3 ∨ n = 4 ∨ (30 ≤ n ∧ n ≤ 49))

/-- The spec's description of component decoration: the component text gets
the path separator appended, except for a root or prefix component (which
already implies a separator) and the last component of the sequence. -/
def decorateSpec (c : PathComponent) (isLast : Bool) : String :=
  if isLast then componentText c
  else
    match c with
    | PathComponent.Pre _ | PathComponent.RootDir => componentText c
    | _ => componentText c ++ String.mk [MAIN_SEPARATOR]

/-- Registry configuring only the SymbolicLink indicator. -/
def lsLnOnly : LsColors := LsColors.empty.add_from_string "ln=01;36"

/-- Registry from the entry string whose second entry sets MissingFile to
the all-default style. -/
def lsOrMi : LsColors := LsColors.empty.add_from_string "or=33;44:mi=00"

/-- Registry with the two suffix rules of the reverse-scan example. -/
def lsSuffixes : LsColors := LsColors.empty.add_from_string "*.foo=01;35:*README.foo=33;44"

/-- Registry with two rules for the same suffix. -/
def lsDupSuffix : LsColors := LsColors.empty.add_from_string "*.z=31:*.z=32"

/-- Registry configuring only the Setuid indicator. -/
def lsSetuidOnly : LsColors := LsColors.empty.add_from_string "su=37;41"

/-- Registry configuring only the RegularFile indicator. -/
def lsFiOnly : LsColors := LsColors.empty.add_from_string "fi=32"

/-- Registry whose most recently appended suffix rule has the empty
suffix (key exactly a star). -/
def lsStarAll : LsColors := LsColors.empty.add_from_string "*.z=31:*=32"

/-- A filesystem oracle with no metadata for any path. -/
def fsNone : FsOracle := ⟨fun _ => none, fun _ => false⟩

/-- Registry that configures Directory and then clears it again with the
value `-0`, which `u8::from_str_radix` rejects for unsigned types. -/
def lsDiCleared : LsColors := LsColors.empty.add_from_string "di=01;34:di=-0"

/-- Chaining two `orElse` lookups is the three-stage staged lookup ending
in an explicit give-up. -/
theorem orElse_chain (m : Indicator → Option Style) (a b : Indicator) :
    ((m a).orElse fun _ => m b).orElse (fun _ => m Indicator.Normal) =
      lookupStep (m a) (lookupStep (m b) (lookupStep (m Indicator.Normal) none)) := by
  cases m a <;> cases m b <;> cases m Indicator.Normal <;> rfl

/-- C1: for every registry and every indicator, resolving an indicator's
style looks up the indicator directly; on a miss it looks up exactly one
designated fallback indicator per the fixed table (Setuid, Setgid,
ExecutableFile and MultipleHardLinks to RegularFile; the three directory
variants to Directory; OrphanedSymbolicLink to SymbolicLink; MissingFile to
OrphanedSymbolicLink; all others to themselves); on a second miss it looks
up Normal; and if that also misses it returns nothing. -/
theorem style_for_indicator_fallback_table (l : LsColors) (i : Indicator) :
    l.style_for_indicator i = resolveSpec l i := by
  cases i <;> exact orElse_chain l.indicator_mapping _ _

/-- C2 counterexample: in the registry configuring only SymbolicLink,
MissingFile and OrphanedSymbolicLink are unconfigured and SymbolicLink has
the bold cyan style, yet resolving MissingFile returns nothing rather than
SymbolicLink's configured style: the fallback chain is one hop plus Normal,
never the two-hop chain through OrphanedSymbolicLink to SymbolicLink. -/
theorem missing_file_two_hop_refuted :
    lsLnOnly.indicator_mapping Indicator.MissingFile = none ∧
    lsLnOnly.indicator_mapping Indicator.OrphanedSymbolicLink = none ∧
    lsLnOnly.indicator_mapping Indicator.SymbolicLink
      = some ⟨some Color.Cyan, none, ⟨true, false, false⟩⟩ ∧
    lsLnOnly.style_for_indicator Indicator.MissingFile = none ∧
    lsLnOnly.style_for_indicator Indicator.MissingFile
      ≠ lsLnOnly.indicator_mapping Indicator.SymbolicLink := by
  refine ⟨by decide, by decide, by decide, by decide, by decide⟩

/-- C2 amended: in every registry in which neither MissingFile nor
OrphanedSymbolicLink has a configured style, resolving MissingFile follows
the single-hop fallback (MissingFile to OrphanedSymbolicLink) and then goes
straight to the Normal indicator's entry — SymbolicLink is never
consulted, so no two-hop chain occurs. -/
theorem missing_file_falls_back_to_normal (l : LsColors)
    (hmi : l.indicator_mapping Indicator.MissingFile = none)
    (hor : l.indicator_mapping Indicator.OrphanedSymbolicLink = none) :
    l.style_for_indicator Indicator.MissingFile = l.indicator_mapping Indicator.Normal := by
  unfold LsColors.style_for_indicator
  rw [hmi]
  show (Option.orElse none fun _ => l.indicator_mapping Indicator.OrphanedSymbolicLink).orElse _
      = _
  rw [hor]
  rfl

/-- Witness for the amended C2 theorem at the SymbolicLink-only registry. -/
theorem missing_file_falls_back_to_normal_witness :
    lsLnOnly.style_for_indicator Indicator.MissingFile = none :=
  (missing_file_falls_back_to_normal lsLnOnly (by decide) (by decide)).trans (by decide)

/-- A key recognized as a two-letter indicator code does not start with a
star. -/
theorem fromCode_not_star (k : String) (ind : Indicator)
    (h : Indicator.fromCode k = some ind) : stripStar k = none := by
  unfold Indicator.fromCode at h
  split at h <;> first
    | decide
    | simp at h

/-- A directly configured indicator resolves to its configured style. -/
theorem style_for_indicator_direct_hit (l : LsColors) (i : Indicator) (s : Style)
    (h : l.indicator_mapping i = some s) : l.style_for_indicator i = some s := by
  unfold LsColors.style_for_indicator
  rw [h]
  rfl

/-- C3: for a well-formed entry whose key is a two-letter indicator code,
a value that parses installs the parsed style for that indicator and the
indicator then resolves to exactly that style with no fallback; a value
that fails to parse removes any existing mapping; a key that is neither a
suffix pattern nor a known code leaves the registry unchanged; and the
all-default style parsed from `00` still counts as explicitly configured,
so after applying the string with `or=33;44` and `mi=00` MissingFile
resolves to the all-default style directly, not to the orphan style via
fallback.  A non-numeric token includes a stray sign: the value `-0` fails
the unsigned byte parse, so the entry clearing `di` with it removes the
previously configured Directory style. -/
theorem indicator_entry_semantics :
    (∀ (l : LsColors) (e k v : String) (rest : List String) (ind : Indicator) (s : Style),
       splitOnChar e '=' = k :: v :: rest →
       Indicator.fromCode k = some ind →
       Style.from_ansi_sequence v = some s →
       (l.add_entry e).indicator_mapping ind = some s ∧
       (l.add_entry e).style_for_indicator ind = some s) ∧
    (∀ (l : LsColors) (e k v : String) (rest : List String) (ind : Indicator),
       splitOnChar e '=' = k :: v :: rest →
       Indicator.fromCode k = some ind →
       Style.from_ansi_sequence v = none →
       (l.add_entry e).indicator_mapping ind = none) ∧
    (∀ (l : LsColors) (e k v : String) (rest : List String),
       splitOnChar e '=' = k :: v :: rest →
       stripStar k = none →
       Indicator.fromCode k = none →
       l.add_entry e = l) ∧
    lsOrMi.style_for_indicator Indicator.MissingFile = some ⟨none, none, FontStyle.dflt⟩ ∧
    Style.from_ansi_sequence "-0" = none ∧
    lsDiCleared.indicator_mapping Indicator.Directory = none := by
  refine ⟨?_, ?_, ?_, by decide, by decide, by decide⟩
  · intro l e k v rest ind s hsplit hcode hstyle
    have hstar := fromCode_not_star k ind hcode
    have hmap : (l.add_entry e).indicator_mapping ind = some s := by
      simp only [LsColors.add_entry, hsplit, LsColors.add_kv, hstar, hcode, hstyle]
      simp
    exact ⟨hmap, style_for_indicator_direct_hit _ _ _ hmap⟩
  · intro l e k v rest ind hsplit hcode hstyle
    have hstar := fromCode_not_star k ind hcode
    simp only [LsColors.add_entry, hsplit, LsColors.add_kv, hstar, hcode, hstyle]
    simp
  · intro l e k v rest hsplit hstar hcode
    simp only [LsColors.add_entry, hsplit, LsColors.add_kv, hstar, hcode]

/-- Witness for C3 at the concrete entry assigning bold blue to the
directory indicator. -/
theorem indicator_entry_semantics_witness :
    (LsColors.empty.add_entry "di=01;34").indicator_mapping Indicator.Directory
      = some ⟨some Color.Blue, none, ⟨true, false, false⟩⟩ ∧
    (LsColors.empty.add_entry "di=01;34").style_for_indicator Indicator.Directory
      = some ⟨some Color.Blue, none, ⟨true, false, false⟩⟩ :=
  indicator_entry_semantics.1 LsColors.empty "di=01;34" "di" "01;34" []
    Indicator.Directory ⟨some Color.Blue, none, ⟨true, false, false⟩⟩
    (by decide) (by decide) (by decide)

/-- C4: for a path classified as RegularFile with a representable
filename, resolution lowercases the filename and scans the suffix list in
reverse insertion order, returning the style of the first suffix the
lowercased filename ends with, and falling through to indicator resolution
when none matches; consequently with the rules for the plain and the
longer suffix, `dummy.foo` gets the first rule's style and `README.foo`
the second rule's style, and of two rules with the same suffix the one
applied last wins. -/
theorem suffix_reverse_scan :
    (∀ (l : LsColors) (pe : Bool) (name : String) (md : Option Metadata) (p : String × Style),
       l.indicator_for pe md = Indicator.RegularFile →
       l.suffix_mapping.reverse.find? (fun q => endsWithStr (asciiLower name) q.1) = some p →
       l.style_for_path_with_metadata pe (some (some name)) md = some p.2) ∧
    (∀ (l : LsColors) (pe : Bool) (name : String) (md : Option Metadata),
       l.indicator_for pe md = Indicator.RegularFile →
       l.suffix_mapping.reverse.find? (fun q => endsWithStr (asciiLower name) q.1) = none →
       l.style_for_path_with_metadata pe (some (some name)) md
         = l.style_for_indicator Indicator.RegularFile) ∧
    lsSuffixes.style_for_path_with_metadata false (some (some "dummy.foo")) none
      = some ⟨some Color.Purple, none, ⟨true, false, false⟩⟩ ∧
    lsSuffixes.style_for_path_with_metadata false (some (some "README.foo")) none
      = some ⟨some Color.Yellow, some Color.Blue, FontStyle.dflt⟩ ∧
    lsDupSuffix.style_for_path_with_metadata false (some (some "a.z")) none
      = some ⟨some Color.Green, none, FontStyle.dflt⟩ := by
  refine ⟨?_, ?_, by decide, by decide, by decide⟩
  · intro l pe name md p hind hfind
    simp only [LsColors.style_for_path_with_metadata, hind, if_true, hfind]
  · intro l pe name md hind hfind
    simp only [LsColors.style_for_path_with_metadata, hind, if_true, hfind]

/-- Witness for C4 at a registry with a configured RegularFile style and
no suffix rules: no suffix matches and resolution falls through. -/
theorem suffix_reverse_scan_witness :
    lsFiOnly.style_for_path_with_metadata false (some (some "x.tar")) none
      = some ⟨some Color.Green, none, FontStyle.dflt⟩ :=
  (suffix_reverse_scan.2.1 lsFiOnly false "x.tar" none (by decide) (by decide)).trans
    (by decide)

/-- C5: classification returns RegularFile whenever metadata is absent;
for a regular file it runs the gated priority chain setuid, setgid,
executable, multiple hard links, each consulted only when that indicator
is explicitly configured; for a directory the gated chain is
sticky-and-other-writable, other-writable, sticky. -/
theorem classify_gated_priority :
    (∀ (l : LsColors) (pe : Bool), l.indicator_for pe none = Indicator.RegularFile) ∧
    (∀ (l : LsColors) (pe : Bool) (md : Metadata),
       md.file_type = FileType.File →
       l.indicator_for pe (some md) = fileClassifySpec l md) ∧
    (∀ (l : LsColors) (pe : Bool) (md : Metadata),
       md.file_type = FileType.Dir →
       l.indicator_for pe (some md) = dirClassifySpec l md) := by
  refine ⟨fun l pe => rfl, ?_, ?_⟩
  · intro l pe md h
    obtain ⟨ft, mode, nlink⟩ := md
    cases h
    simp [LsColors.indicator_for, fileClassifySpec, Bool.and_eq_true, decide_eq_true_eq]
  · intro l pe md h
    obtain ⟨ft, mode, nlink⟩ := md
    cases h
    simp [LsColors.indicator_for, dirClassifySpec, Bool.and_eq_true, decide_eq_true_eq]

/-- Witness for C5: a setuid-configured registry classifies a setuid
regular file as Setuid, and with nothing configured a sticky
other-writable directory stays plain Directory (all gates skipped). -/
theorem classify_gated_priority_witness :
    lsSetuidOnly.indicator_for false (some ⟨FileType.File, 0o4755, 1⟩) = Indicator.Setuid ∧
    LsColors.empty.indicator_for false (some ⟨FileType.Dir, 0o1777, 2⟩)
      = Indicator.Directory :=
  ⟨(classify_gated_priority.2.1 lsSetuidOnly false ⟨FileType.File, 0o4755, 1⟩ rfl).trans
      (by decide),
   (classify_gated_priority.2.2 LsColors.empty false ⟨FileType.Dir, 0o1777, 2⟩ rfl).trans
      (by decide)⟩

/-- Collecting the token list fails exactly when some token fails to
parse as an unsigned byte. -/
theorem parseTokens_eq_none (ts : List String) :
    parseTokens ts = none ↔ ∃ t ∈ ts, parseU8 t = none := by
  induction ts with
  | nil => simp [parseTokens]
  | cons t ts ih =>
    constructor
    · intro hnone
      simp only [parseTokens] at hnone
      cases h : parseU8 t with
      | none => exact ⟨t, List.mem_cons_self t ts, h⟩
      | some n =>
        cases h2 : parseTokens ts with
        | none =>
          obtain ⟨u, hu, hpu⟩ := ih.mp h2
          exact ⟨u, List.mem_cons_of_mem _ hu, hpu⟩
        | some ns => rw [h, h2] at hnone; simp at hnone
    · rintro ⟨u, hu, hpu⟩
      simp only [parseTokens]
      rcases List.mem_cons.mp hu with rfl | hu2
      · rw [hpu]
      · rw [ih.mpr ⟨u, hu2, hpu⟩]
        cases parseU8 t <;> rfl

/-- C6: the SGR parser fails, returning nothing rather than a partial
style, exactly when some semicolon-separated token is not a valid unsigned
byte; once all tokens are valid bytes the loop total-returns a style: an
unrecognized numeric token stops consumption and returns the accumulated
style, and so does running out of tokens inside a 38 or 48 extended color
sequence.  The failure set follows the unsigned byte parse, which rejects
a minus-signed token such as `-0`, so that input makes the whole parse
return nothing. -/
theorem sgr_whole_parse_failure :
    (∀ code, Style.from_ansi_sequence code = none ↔
       ∃ t ∈ splitOnChar code ';', parseU8 t = none) ∧
    (∀ (n : Nat) (rest : List Nat) (fs : FontStyle) (fg bg : Option Color),
       sgrRecognized n = false →
       sgrLoop (n :: rest) fs fg bg = ⟨fg, bg, fs⟩) ∧
    (∀ (fs : FontStyle) (fg bg : Option Color) (r g : Nat),
       sgrLoop [38] fs fg bg = ⟨fg, bg, fs⟩ ∧
       sgrLoop [38, 5] fs fg bg = ⟨fg, bg, fs⟩ ∧
       sgrLoop [38, 2] fs fg bg = ⟨fg, bg, fs⟩ ∧
       sgrLoop [38, 2, r] fs fg bg = ⟨fg, bg, fs⟩ ∧
       sgrLoop [38, 2, r, g] fs fg bg = ⟨fg, bg, fs⟩ ∧
       sgrLoop [48] fs fg bg = ⟨fg, bg, fs⟩ ∧
       sgrLoop [48, 5] fs fg bg = ⟨fg, bg, fs⟩ ∧
       sgrLoop [48, 2] fs fg bg = ⟨fg, bg, fs⟩ ∧
       sgrLoop [48, 2, r] fs fg bg = ⟨fg, bg, fs⟩ ∧
       sgrLoop [48, 2, r, g] fs fg bg = ⟨fg, bg, fs⟩) ∧
    parseU8 "-0" = none ∧
    Style.from_ansi_sequence "-0" = none ∧
    Style.from_ansi_sequence "31;-0" = none := by
  refine ⟨?_, ?_, ?_, by decide, by decide, by decide⟩
  · intro code
    rw [← parseTokens_eq_none]
    unfold Style.from_ansi_sequence
    cases h : parseTokens (splitOnChar code ';') <;> simp [h]
  · intro n rest fs fg bg hrec
    simp only [sgrRecognized, decide_eq_false_iff_not] at hrec
    unfold sgrLoop
    repeat rw [if_neg (by omega)]
  · intro fs fg bg r g
    exact ⟨rfl, rfl, rfl, rfl, rfl, rfl, rfl, rfl, rfl, rfl⟩

/-- Witness for C6: the unrecognized token 99 stops consumption before a
following color token. -/
theorem sgr_whole_parse_failure_witness :
    sgrLoop [99, 31] FontStyle.dflt none none = ⟨none, none, FontStyle.dflt⟩ :=
  sgr_whole_parse_failure.2.1 99 [31] FontStyle.dflt none none (by decide)

/-- C7 counterexample: the claim says the entry with key `di` and two
equals signs has the whole remainder `1=2` as its value, which fails SGR
parsing and removes the mapping; in fact the code splits on every equals
sign and keeps only the first two parts, so the value is `1`, which parses
to plain bold and is installed for Directory. -/
theorem entry_value_truncation_counterexample :
    Style.from_ansi_sequence "1=2" = none ∧
    splitOnChar "di=1=2" '=' = ["di", "1", "2"] ∧
    (LsColors.empty.add_from_string "di=1=2").indicator_mapping Indicator.Directory
      = some ⟨none, none, ⟨true, false, false⟩⟩ ∧
    (LsColors.empty.add_from_string "di=1=2").indicator_mapping Indicator.Directory
      ≠ none := by
  refine ⟨by decide, by decide, by decide, by decide⟩

/-- C7 amended: an entry is split on every equals sign; when at least two
parts result, the key is the first part and the value the second part
only, any further parts being silently discarded (so the entry with text
`di=1=2` behaves as key `di` with value `1` and installs the bold style);
entries producing fewer than two parts (no equals sign) are silently
skipped. -/
theorem entry_split_first_two_parts :
    (∀ (l : LsColors) (e k v : String) (rest : List String),
       splitOnChar e '=' = k :: v :: rest →
       l.add_entry e = l.add_kv k v) ∧
    (∀ (l : LsColors) (e : String),
       (splitOnChar e '=').length < 2 →
       l.add_entry e = l) ∧
    (LsColors.empty.add_from_string "di=1=2").indicator_mapping Indicator.Directory
      = some ⟨none, none, ⟨true, false, false⟩⟩ := by
  refine ⟨?_, ?_, by decide⟩
  · intro l e k v rest hsplit
    simp only [LsColors.add_entry, hsplit]
  · intro l e hlen
    rcases hsplit : splitOnChar e '=' with _ | ⟨a, _ | ⟨b, rest⟩⟩
    · simp only [LsColors.add_entry, hsplit]
    · simp only [LsColors.add_entry, hsplit]
    · rw [hsplit] at hlen
      simp at hlen
      omega

/-- Witness for the amended C7 theorem at the concrete double-equals
entry. -/
theorem entry_split_first_two_parts_witness :
    LsColors.empty.add_entry "di=1=2" = LsColors.empty.add_kv "di" "1" :=
  entry_split_first_two_parts.1 LsColors.empty "di=1=2" "di" "1" ["2"] (by decide)

/-- C8 counterexample: with RegularFile explicitly configured, a path
classified as RegularFile whose filename is missing or not representable
makes full-path resolution return nothing, not the configured RegularFile
style. -/
theorem unrepresentable_filename_counterexample :
    lsFiOnly.style_for_indicator Indicator.RegularFile
      = some ⟨some Color.Green, none, FontStyle.dflt⟩ ∧
    lsFiOnly.style_for_path_with_metadata false (some none) none = none ∧
    lsFiOnly.style_for_path_with_metadata false none none = none := by
  refine ⟨by decide, by decide, by decide⟩

/-- C8 amended: for every path classified as RegularFile whose filename is
missing or cannot be represented as matchable text, full-path resolution
returns nothing: the early return on the filename propagates instead of
falling through to indicator-only resolution. -/
theorem unrepresentable_filename_yields_none (l : LsColors) (pe : Bool)
    (fn : Option (Option String)) (md : Option Metadata)
    (hind : l.indicator_for pe md = Indicator.RegularFile)
    (hfn : fn = none ∨ fn = some none) :
    l.style_for_path_with_metadata pe fn md = none := by
  rcases hfn with rfl | rfl <;>
    simp only [LsColors.style_for_path_with_metadata, hind, if_true]

/-- Witness for the amended C8 theorem at the RegularFile-configured
registry. -/
theorem unrepresentable_filename_yields_none_witness :
    lsFiOnly.style_for_path_with_metadata false (some none) none = none :=
  unrepresentable_filename_yields_none lsFiOnly false (some none) none (by decide)
    (Or.inr rfl)

/-- The styled-component sequence has one entry per component, whatever
the accumulated path so far. -/
theorem styledComponentsAux_length (l : LsColors) (fs : FsOracle) :
    ∀ (cs acc : List PathComponent),
      (styledComponentsAux l fs acc cs).length = cs.length := by
  intro cs
  induction cs with
  | nil => intro acc; rfl
  | cons c cs ih =>
    intro acc
    simp only [styledComponentsAux, List.length_cons, ih]

/-- Entry `i` of the styled-component sequence built from accumulated path
`acc`: the component decorated per the separator rule, styled by full-path
resolution of `acc` extended with the first `i + 1` components. -/
theorem styledComponentsAux_get (l : LsColors) (fs : FsOracle) :
    ∀ (cs acc : List PathComponent) (i : Nat),
      (styledComponentsAux l fs acc cs).get? i
        = (cs.get? i).map (fun c =>
            (decorateSpec c (i + 1 == cs.length),
             l.style_for_path fs (acc ++ cs.take (i + 1)))) := by
  intro cs
  induction cs with
  | nil => intro acc i; simp [styledComponentsAux]
  | cons c cs ih =>
    intro acc i
    cases i with
    | zero => cases cs <;> cases c <;> rfl
    | succ j =>
      simp only [styledComponentsAux, List.get?_cons_succ]
      rw [ih (acc ++ [c]) j]
      simp [List.append_assoc]

/-- C9: the path-component styler produces exactly one entry per path
component in root-to-leaf order; entry `i` pairs the component text,
decorated with the platform separator appended except for root or prefix
components and the last component, with the full-path resolution of the
accumulated prefix up to and including that component. -/
theorem styled_components_characterization (l : LsColors) (fs : FsOracle)
    (cs : List PathComponent) (i : Nat) :
    (l.style_for_path_components fs cs).length = cs.length ∧
    (l.style_for_path_components fs cs).get? i
      = (cs.get? i).map (fun c =>
          (decorateSpec c (i + 1 == cs.length),
           l.style_for_path fs (cs.take (i + 1)))) := by
  constructor
  · exact styledComponentsAux_length l fs cs []
  · have h := styledComponentsAux_get l fs cs [] i
    simpa using h

/-- Every string ends with the empty suffix. -/
theorem endsWithStr_empty (s : String) : endsWithStr s "" = true := by
  unfold endsWithStr
  simp

/-- C10: an entry whose key is exactly a star appends the empty string as
a suffix rule; and because every filename ends with the empty suffix, a
registry whose most recently appended suffix rule is the empty suffix
resolves every RegularFile-classified path with a representable filename
to that rule's style, shadowing all earlier suffix rules. -/
theorem star_empty_suffix :
    (∀ (l : LsColors) (v : String) (s : Style),
       Style.from_ansi_sequence v = some s →
       l.add_kv "*" v = { l with suffix_mapping := l.suffix_mapping ++ [("", s)] }) ∧
    (∀ (l : LsColors) (s : Style) (name : String) (pe : Bool) (md : Option Metadata),
       l.suffix_mapping.getLast? = some ("", s) →
       l.indicator_for pe md = Indicator.RegularFile →
       l.style_for_path_with_metadata pe (some (some name)) md = some s) := by
  constructor
  · intro l v s h
    simp [LsColors.add_kv, stripStar, asciiLower, h]
  · intro l s name pe md hlast hind
    have hrev : l.suffix_mapping.reverse.head? = some ("", s) := by
      rw [List.head?_reverse]; exact hlast
    obtain ⟨t, ht⟩ : ∃ t, l.suffix_mapping.reverse = ("", s) :: t := by
      cases hr : l.suffix_mapping.reverse with
      | nil => rw [hr] at hrev; simp at hrev
      | cons a t =>
        rw [hr] at hrev
        simp only [List.head?_cons, Option.some.injEq] at hrev
        exact ⟨t, by rw [hrev]⟩
    simp only [LsColors.style_for_path_with_metadata, hind, if_true, ht]
    have hp : (fun q : String × Style => endsWithStr (asciiLower name) q.1) ("", s) = true :=
      endsWithStr_empty (asciiLower name)
    rw [List.find?_cons_of_pos t hp]

/-- Witness for C10: with the empty-suffix rule appended last, a filename
matching an earlier rule still gets the empty-suffix rule's style. -/
theorem star_empty_suffix_witness :
    lsStarAll.style_for_path_with_metadata false (some (some "anything.z")) none
      = some ⟨some Color.Green, none, FontStyle.dflt⟩ :=
  star_empty_suffix.2 lsStarAll ⟨some Color.Green, none, FontStyle.dflt⟩ "anything.z"
    false none (by decide) (by decide)

end Lscolors
